import Mathlib

/-!
# mittens: `internal/pkg/http/utils.go`

A shallow embedding of `ToHTTPRequest` and `GZipCompressBody`, together with
the parts of the Go standard library they rely on (`strings.SplitN`,
`fmt.Errorf`, `bytes.NewBufferString`).

Go strings are modelled as lists of characters.  The functions of the
`placeholders` package and `strings.ToUpper` are taken as parameters, collected
in `Env`.  The placeholder functions read the clock, a random source and the
file system, so they are modelled as state transformers over an abstract
world `σ`.
-/

namespace Mittens

/-- A Go `string`. -/
abbrev GoString := List Char

/-! ## Standard library -/

/-- The index of the first occurrence of `c` in `s` (`strings.IndexByte`),
`none` standing for Go's `-1`. -/
def IndexByte : GoString → Char → Option Nat
  | [], _ => none
  | x :: xs, c => if x = c then some 0 else (IndexByte xs c).map (· + 1)

/-- The loop of `strings.genSplit` for a one-byte separator, with `sepSave = 0`:
`k` is the number of cuts still allowed (`n - 1 - i` in the source). -/
def genSplitLoop (sep : Char) : Nat → GoString → List GoString
  | 0, s => [s]
  | k + 1, s =>
    match IndexByte s sep with
    | none => [s]
    | some m => s.take m :: genSplitLoop sep k (s.drop (m + 1))

/-- The function `strings.SplitN(s, sep, n)` for a one-byte separator and `n ≥ 0`:
`n = 0` gives `nil`, and `n` is clamped to `len(s) + 1` before the loop. -/
def SplitN (s : GoString) (sep : Char) (n : Nat) : List GoString :=
  if n = 0 then []
  else genSplitLoop sep (min n (s.length + 1) - 1) s

/-- A Go `error` as built by `fmt.Errorf`: a plain message, or (with the `%w`
verb) a message around a wrapped error. -/
inductive GoError where
  | errorString (s : GoString)
  | wrapError (msg : GoString) (err : GoError)
  deriving DecidableEq

/-- The method `Error()`. -/
def GoError.Error : GoError → GoString
  | .errorString s => s
  | .wrapError msg _ => msg

/-- The function `errors.Unwrap`. -/
def GoError.Unwrap : GoError → Option GoError
  | .errorString _ => none
  | .wrapError _ err => some err

/-! ## The package -/

/-- The `io.Reader` values built by this package. -/
inductive Reader where
  /-- The buffer `bytes.NewBufferString(s)`. -/
  | buffer (s : GoString)
  /-- The read end of the pipe made by `GZipCompressBody(body)`. -/
  | gzipPipe (body : GoString)
  deriving DecidableEq

/-- Draining a reader with `buf.ReadFrom(r)`: a `bytes.Buffer` hands out its
text and then reports end of stream.  What the pipe hands out is produced by
the concurrent gzip writer and is not modelled. -/
def Reader.ReadFrom : Reader → Option GoString
  | .buffer s => some s
  | .gzipPipe _ => none

/-- Request represents an HTTP request. -/
structure Request where
  Method : GoString
  Path : GoString
  Body : Option Reader
  deriving DecidableEq

/-- The zero value `Request{}`. -/
def Request.zero : Request := { Method := [], Path := [], Body := none }

/-- The keys of the map `allowedHTTPMethods`. -/
def allowedHTTPMethods : List GoString :=
  ["GET".toList, "HEAD".toList, "POST".toList, "PUT".toList, "PATCH".toList,
   "DELETE".toList, "CONNECT".toList, "OPTIONS".toList, "TRACE".toList]

/-- What `ToHTTPRequest` calls outside its own package. -/
structure Env (σ : Type) where
  /-- The function `strings.ToUpper`. -/
  ToUpper : GoString → GoString
  /-- The function `placeholders.InterpolatePlaceholders`. -/
  InterpolatePlaceholders : GoString → σ → GoString × σ
  /-- The function `placeholders.GetBodyFromFileOrInlined`: the text behind `*rawBody`, or the error. -/
  GetBodyFromFileOrInlined : GoString → σ → Except GoError GoString × σ

/-- GZipCompressBody returns the read end of a pipe into which a goroutine
writes `body` through a gzip writer. -/
def GZipCompressBody (body : GoString) : Reader := Reader.gzipPipe body

/-- ToHTTPRequest parses an HTTP request which is in a string format and
stores it in a struct. -/
def ToHTTPRequest {σ : Type} (E : Env σ) (requestString : GoString) (gzipCompression : Bool)
    (w : σ) : (Request × Option GoError) × σ :=
  let parts := SplitN requestString ':' 3
  if parts.length < 2 then
    ((Request.zero, some (GoError.errorString
      ("invalid request flag: ".toList ++ requestString ++
        ", expected format <http-method>:<path>[:body]".toList))), w)
  else
    let method := E.ToUpper (parts.getD 0 [])
    if method ∉ allowedHTTPMethods then
      ((Request.zero, some (GoError.errorString
        ("invalid request flag: ".toList ++ requestString ++ ", method ".toList ++ method ++
          " is not supported".toList))), w)
    else if parts.length = 2 then
      let path := E.InterpolatePlaceholders (parts.getD 1 []) w
      (({ Method := method, Path := path.1, Body := none }, none), path.2)
    else
      let path := E.InterpolatePlaceholders (parts.getD 1 []) w
      let rawBody := E.GetBodyFromFileOrInlined (parts.getD 2 []) path.2
      match rawBody.1 with
      | .error _ =>
        ((Request.zero, some (GoError.errorString
          ("unable to parse body for request: ".toList ++ parts.getD 2 []))), rawBody.2)
      | .ok raw =>
        let interpolatedBody := E.InterpolatePlaceholders raw rawBody.2
        let reader :=
          if gzipCompression = true then GZipCompressBody interpolatedBody.1
          else Reader.buffer interpolatedBody.1
        (({ Method := method, Path := path.1, Body := some reader }, none), interpolatedBody.2)

/-! ## A concrete environment -/

/-- The upper-case form of an ASCII string; `strings.ToUpper` agrees with it
on strings of ASCII characters. -/
def asciiToUpper (s : GoString) : GoString := s.map Char.toUpper

/-- A file system: the readable files and their contents. -/
abbrev Files := List (GoString × GoString)

/-- Modelled from the spec: the body of `placeholders.GetBodyFromFileOrInlined`, which
is not among the sources.  A segment beginning with `file:` means "read and
return file contents", anything else is returned unchanged; the call fails when
the referenced file cannot be read. -/
def getBodyFromFileOrInlined (source : GoString) (fs : Files) : Except GoError GoString × Files :=
  if "file:".toList.isPrefixOf source then
    match fs.lookup (source.drop 5) with
    | some text => (.ok text, fs)
    | none =>
      (.error (GoError.errorString
        ("open ".toList ++ source.drop 5 ++ ": no such file or directory".toList)), fs)
  else (.ok source, fs)

/-- An environment for texts without placeholders, over a file system: the
expander leaves such texts as they are. -/
def plainEnv : Env Files where
  ToUpper := asciiToUpper
  InterpolatePlaceholders := fun s fs => (s, fs)
  GetBodyFromFileOrInlined := getBodyFromFileOrInlined

/-! ## An environment with a clock -/

/-- A world with a clock and files: `now` is the decimal reading of the clock
in milliseconds. -/
structure World where
  now : GoString
  files : Files

/-- Modelled from the spec: the part of `placeholders.InterpolatePlaceholders`, which
is not among the sources, that replaces every current-timestamp token
`{$currentTimestamp}` by the digits of the clock; `skip` is the number of
characters of a token still to be passed over. -/
def interpolateTimestamp (now : GoString) : Nat → GoString → GoString
  | _, [] => []
  | skip + 1, _ :: xs => interpolateTimestamp now skip xs
  | 0, x :: xs =>
    if "\x7b$currentTimestamp\x7d".toList.isPrefixOf (x :: xs) then
      now ++ interpolateTimestamp now 18 xs
    else x :: interpolateTimestamp now 0 xs

/-- An environment whose expander knows the current-timestamp token and whose
resolver reads the files of the world. -/
def clockEnv : Env World where
  ToUpper := asciiToUpper
  InterpolatePlaceholders := fun s w => (interpolateTimestamp w.now 0 s, w)
  GetBodyFromFileOrInlined := fun s w => ((getBodyFromFileOrInlined s w.files).1, w)

/-! ## Splitting -/

theorem IndexByte_of_not_mem (c : Char) (s : GoString) (h : c ∉ s) : IndexByte s c = none := by
  induction s with
  | nil => rfl
  | cons x xs ih =>
    have hx : x ≠ c := fun e => h (e ▸ List.mem_cons_self _ _)
    have hxs : c ∉ xs := fun e => h (List.mem_cons_of_mem _ e)
    simp [IndexByte, hx, ih hxs]

theorem IndexByte_append (c : Char) (m r : GoString) (h : c ∉ m) :
    IndexByte (m ++ c :: r) c = some m.length := by
  induction m with
  | nil => simp [IndexByte]
  | cons x xs ih =>
    have hx : x ≠ c := fun e => h (e ▸ List.mem_cons_self _ _)
    have hxs : c ∉ xs := fun e => h (List.mem_cons_of_mem _ e)
    simp [IndexByte, hx, ih hxs]

theorem genSplitLoop_of_not_mem (c : Char) (k : Nat) (s : GoString) (h : c ∉ s) :
    genSplitLoop c k s = [s] := by
  cases k with
  | zero => rfl
  | succ k => simp [genSplitLoop, IndexByte_of_not_mem c s h]

theorem genSplitLoop_append (c : Char) (k : Nat) (m r : GoString) (h : c ∉ m) :
    genSplitLoop c (k + 1) (m ++ c :: r) = m :: genSplitLoop c k r := by
  simp [genSplitLoop, IndexByte_append c m r h]

theorem SplitN_zero_cuts (s : GoString) (h : ':' ∉ s) : SplitN s ':' 3 = [s] := by
  simp [SplitN, genSplitLoop_of_not_mem ':' _ s h]

theorem SplitN_one_cut (m p : GoString) (hm : ':' ∉ m) (hp : ':' ∉ p) :
    SplitN (m ++ ':' :: p) ':' 3 = [m, p] := by
  obtain ⟨k, hk⟩ : ∃ k, min 3 ((m ++ ':' :: p).length + 1) - 1 = k + 1 :=
    ⟨min 3 ((m ++ ':' :: p).length + 1) - 2, by
      simp only [List.length_append, List.length_cons]; omega⟩
  unfold SplitN
  rw [if_neg (by decide), hk, genSplitLoop_append ':' k m p hm,
    genSplitLoop_of_not_mem ':' k p hp]

theorem SplitN_two_cuts (m p b : GoString) (hm : ':' ∉ m) (hp : ':' ∉ p) :
    SplitN (m ++ ':' :: (p ++ ':' :: b)) ':' 3 = [m, p, b] := by
  have hk : min 3 ((m ++ ':' :: (p ++ ':' :: b)).length + 1) - 1 = 1 + 1 := by
    simp only [List.length_append, List.length_cons]; omega
  unfold SplitN
  rw [if_neg (by decide), hk, genSplitLoop_append ':' 1 m _ hm,
    genSplitLoop_append ':' 0 p b hp]
  rfl

/-- Every string has no colon, exactly one, or a second one after which
anything may follow. -/
theorem colon_shape (s : GoString) :
    ':' ∉ s ∨ (∃ m p, s = m ++ ':' :: p ∧ ':' ∉ m ∧ ':' ∉ p) ∨
      (∃ m p b, s = m ++ ':' :: (p ++ ':' :: b) ∧ ':' ∉ m ∧ ':' ∉ p) := by
  by_cases h : ':' ∈ s
  · obtain ⟨m, r, rfl, hm⟩ := List.eq_append_cons_of_mem h
    by_cases hr : ':' ∈ r
    · obtain ⟨p, b, rfl, hp⟩ := List.eq_append_cons_of_mem hr
      exact Or.inr (Or.inr ⟨m, p, b, rfl, hm, hp⟩)
    · exact Or.inr (Or.inl ⟨m, r, rfl, hm, hr⟩)
  · exact Or.inl h

/-! ## The three shapes of a request string -/

theorem ToHTTPRequest_zero_cuts {σ : Type} (E : Env σ) (s : GoString) (gz : Bool) (w : σ)
    (h : ':' ∉ s) :
    ToHTTPRequest E s gz w =
      ((Request.zero, some (GoError.errorString
        ("invalid request flag: ".toList ++ s ++
          ", expected format <http-method>:<path>[:body]".toList))), w) := by
  simp [ToHTTPRequest, SplitN_zero_cuts s h]

theorem ToHTTPRequest_unsupported {σ : Type} (E : Env σ) (m r : GoString) (gz : Bool) (w : σ)
    (hm : ':' ∉ m) (hv : E.ToUpper m ∉ allowedHTTPMethods) :
    ToHTTPRequest E (m ++ ':' :: r) gz w =
      ((Request.zero, some (GoError.errorString
        ("invalid request flag: ".toList ++ (m ++ ':' :: r) ++ ", method ".toList ++
          E.ToUpper m ++ " is not supported".toList))), w) := by
  by_cases hr : ':' ∈ r
  · obtain ⟨p, b, rfl, hp⟩ := List.eq_append_cons_of_mem hr
    simp [ToHTTPRequest, SplitN_two_cuts m p b hm hp, hv]
  · simp [ToHTTPRequest, SplitN_one_cut m r hm hr, hv]

theorem ToHTTPRequest_one_cut {σ : Type} (E : Env σ) (m p : GoString) (gz : Bool) (w : σ)
    (hm : ':' ∉ m) (hp : ':' ∉ p) (hv : E.ToUpper m ∈ allowedHTTPMethods) :
    ToHTTPRequest E (m ++ ':' :: p) gz w =
      (({ Method := E.ToUpper m, Path := (E.InterpolatePlaceholders p w).1, Body := none }, none),
        (E.InterpolatePlaceholders p w).2) := by
  simp [ToHTTPRequest, SplitN_one_cut m p hm hp, hv]

theorem ToHTTPRequest_two_cuts_error {σ : Type} (E : Env σ) (m p b : GoString) (gz : Bool)
    (w : σ) (c : GoError) (hm : ':' ∉ m) (hp : ':' ∉ p)
    (hv : E.ToUpper m ∈ allowedHTTPMethods)
    (hres : (E.GetBodyFromFileOrInlined b (E.InterpolatePlaceholders p w).2).1 = Except.error c) :
    ToHTTPRequest E (m ++ ':' :: (p ++ ':' :: b)) gz w =
      ((Request.zero, some (GoError.errorString
        ("unable to parse body for request: ".toList ++ b))),
        (E.GetBodyFromFileOrInlined b (E.InterpolatePlaceholders p w).2).2) := by
  simp [ToHTTPRequest, SplitN_two_cuts m p b hm hp, hv, hres]

theorem ToHTTPRequest_two_cuts_ok {σ : Type} (E : Env σ) (m p b : GoString) (gz : Bool)
    (w : σ) (t : GoString) (hm : ':' ∉ m) (hp : ':' ∉ p)
    (hv : E.ToUpper m ∈ allowedHTTPMethods)
    (hres : (E.GetBodyFromFileOrInlined b (E.InterpolatePlaceholders p w).2).1 = Except.ok t) :
    ToHTTPRequest E (m ++ ':' :: (p ++ ':' :: b)) gz w =
      (({ Method := E.ToUpper m, Path := (E.InterpolatePlaceholders p w).1,
          Body := some (if gz = true
            then GZipCompressBody (E.InterpolatePlaceholders t
              (E.GetBodyFromFileOrInlined b (E.InterpolatePlaceholders p w).2).2).1
            else Reader.buffer (E.InterpolatePlaceholders t
              (E.GetBodyFromFileOrInlined b (E.InterpolatePlaceholders p w).2).2).1) }, none),
        (E.InterpolatePlaceholders t
          (E.GetBodyFromFileOrInlined b (E.InterpolatePlaceholders p w).2).2).2) := by
  simp [ToHTTPRequest, SplitN_two_cuts m p b hm hp, hv, hres]

theorem count_one_cut (m p : GoString) (hm : ':' ∉ m) (hp : ':' ∉ p) :
    (m ++ ':' :: p).count ':' = 1 := by
  simp [List.count_append, List.count_cons, List.count_eq_zero_of_not_mem hm,
    List.count_eq_zero_of_not_mem hp]

theorem count_two_cuts (m p b : GoString) : 2 ≤ (m ++ ':' :: (p ++ ':' :: b)).count ':' := by
  simp only [List.count_append, List.count_cons, beq_self_eq_true, if_true]
  omega

/-! ## Outcomes -/

/-- The message of the unsupported-method error is never that of the
malformed-string error. -/
theorem unsupported_ne_malformed (s M : GoString) :
    "invalid request flag: ".toList ++ s ++ ", method ".toList ++ M ++ " is not supported".toList ≠
      "invalid request flag: ".toList ++ s ++
        ", expected format <http-method>:<path>[:body]".toList := by
  intro h
  rw [List.append_assoc, List.append_assoc, List.append_assoc, List.append_assoc] at h
  have h2 := List.append_cancel_left (List.append_cancel_left h)
  simp [String.toList] at h2

/-- The message of the body error is never that of the malformed-string error. -/
theorem body_error_ne_malformed (s b : GoString) :
    "unable to parse body for request: ".toList ++ b ≠
      "invalid request flag: ".toList ++ s ++
        ", expected format <http-method>:<path>[:body]".toList := by
  intro h
  simp [String.toList] at h

/-- The error of a request string with a colon, whatever the outcome, is not
the malformed-string error. -/
theorem error_of_colon {σ : Type} (E : Env σ) (s : GoString) (gz : Bool) (w : σ)
    (h : ':' ∈ s) :
    (ToHTTPRequest E s gz w).1.2 ≠ some (GoError.errorString
      ("invalid request flag: ".toList ++ s ++
        ", expected format <http-method>:<path>[:body]".toList)) := by
  obtain ⟨m, r, rfl, hm⟩ := List.eq_append_cons_of_mem h
  by_cases hv : E.ToUpper m ∈ allowedHTTPMethods
  · by_cases hr : ':' ∈ r
    · obtain ⟨p, b, rfl, hp⟩ := List.eq_append_cons_of_mem hr
      cases hres : (E.GetBodyFromFileOrInlined b (E.InterpolatePlaceholders p w).2).1 with
      | error c =>
        rw [ToHTTPRequest_two_cuts_error E m p b gz w c hm hp hv hres]
        intro e
        exact body_error_ne_malformed _ _ (GoError.errorString.inj (Option.some.inj e))
      | ok t =>
        rw [ToHTTPRequest_two_cuts_ok E m p b gz w t hm hp hv hres]
        exact fun e => Option.noConfusion e
    · rw [ToHTTPRequest_one_cut E m r gz w hm hr hv]
      exact fun e => Option.noConfusion e
  · rw [ToHTTPRequest_unsupported E m r gz w hm hv]
    intro e
    exact unsupported_ne_malformed _ _ (GoError.errorString.inj (Option.some.inj e))

/-- C1: for every request string and either value of the compression flag,
`ToHTTPRequest` returns the error "invalid request flag: <string>, expected
format <http-method>:<path>[:body]", naming the whole string, if and only if
the string has no colon. -/
theorem C1_malformed_iff_no_colon {σ : Type} (E : Env σ) (s : GoString) (gz : Bool) (w : σ) :
    (ToHTTPRequest E s gz w).1.2 = some (GoError.errorString
      ("invalid request flag: ".toList ++ s ++
        ", expected format <http-method>:<path>[:body]".toList)) ↔ ':' ∉ s := by
  constructor
  · intro h hc
    exact error_of_colon E s gz w hc h
  · intro h
    rw [ToHTTPRequest_zero_cuts E s gz w h]

/-- C2: for every request string with a colon whose text before the first
colon does not upper-case to one of the nine allowed methods,
`ToHTTPRequest` returns the error "invalid request flag: <string>, method
<METHOD> is not supported", whatever follows the first colon and whatever the
body resolver would do. -/
theorem C2_unsupported_method {σ : Type} (E : Env σ) (m r : GoString) (gz : Bool) (w : σ)
    (hm : ':' ∉ m) (hv : E.ToUpper m ∉ allowedHTTPMethods) :
    (ToHTTPRequest E (m ++ ':' :: r) gz w).1 =
      (Request.zero, some (GoError.errorString
        ("invalid request flag: ".toList ++ (m ++ ':' :: r) ++ ", method ".toList ++
          E.ToUpper m ++ " is not supported".toList))) := by
  rw [ToHTTPRequest_unsupported E m r gz w hm hv]

/-- The test string `hmm:/ping:all=true` is rejected for its method `HMM`. -/
theorem C2_unsupported_method_witness :
    ':' ∉ "hmm".toList ∧ plainEnv.ToUpper "hmm".toList ∉ allowedHTTPMethods ∧
    (ToHTTPRequest plainEnv "hmm:/ping:all=true".toList false []).1 =
      (Request.zero, some (GoError.errorString
        "invalid request flag: hmm:/ping:all=true, method HMM is not supported".toList)) :=
  ⟨by decide, by decide,
    C2_unsupported_method plainEnv "hmm".toList "/ping:all=true".toList false []
      (by decide) (by decide)⟩

/-- C3, as stated, fails: `post:/db:file:/nope` has the shape
`<verb>:<path>:<body>` with an allowed verb, yet with no readable file `/nope`
the call returns an error and the zero request. -/
theorem C3_counterexample :
    ':' ∉ "post".toList ∧ ':' ∉ "/db".toList ∧
    plainEnv.ToUpper "post".toList ∈ allowedHTTPMethods ∧
    (ToHTTPRequest plainEnv "post:/db:file:/nope".toList false []).1 =
      (Request.zero, some (GoError.errorString
        "unable to parse body for request: file:/nope".toList)) := by
  decide

/-- C3, amended: for every request string `<verb>:<path>:<body>` whose verb
upper-cases to an allowed method and on whose body segment the body resolver
succeeds, `ToHTTPRequest` returns no error and a request whose method is the
upper-case verb. -/
theorem C3_three_parts_method {σ : Type} (E : Env σ) (m p b t : GoString) (gz : Bool) (w : σ)
    (hm : ':' ∉ m) (hp : ':' ∉ p) (hv : E.ToUpper m ∈ allowedHTTPMethods)
    (hres : (E.GetBodyFromFileOrInlined b (E.InterpolatePlaceholders p w).2).1 = Except.ok t) :
    (ToHTTPRequest E (m ++ ':' :: (p ++ ':' :: b)) gz w).1.2 = none ∧
      (ToHTTPRequest E (m ++ ':' :: (p ++ ':' :: b)) gz w).1.1.Method = E.ToUpper m := by
  rw [ToHTTPRequest_two_cuts_ok E m p b gz w t hm hp hv hres]
  exact ⟨rfl, rfl⟩

/-- The string `pOsT:/db:x:y` is accepted with method `POST`, also with
compression on. -/
theorem C3_three_parts_method_witness :
    plainEnv.ToUpper "pOsT".toList ∈ allowedHTTPMethods ∧
    (plainEnv.GetBodyFromFileOrInlined "x:y".toList
      (plainEnv.InterpolatePlaceholders "/db".toList []).2).1 = Except.ok "x:y".toList ∧
    (ToHTTPRequest plainEnv "pOsT:/db:x:y".toList true []).1.2 = none ∧
    (ToHTTPRequest plainEnv "pOsT:/db:x:y".toList true []).1.1.Method = "POST".toList :=
  ⟨by decide, rfl,
    C3_three_parts_method plainEnv "pOsT".toList "/db".toList "x:y".toList "x:y".toList true []
      (by decide) (by decide) (by decide) rfl⟩

/-- C4: whenever `ToHTTPRequest` returns without error, the method of the
returned request is one of GET, HEAD, POST, PUT, PATCH, DELETE, CONNECT,
OPTIONS, TRACE. -/
theorem C4_method_allowed {σ : Type} (E : Env σ) (s : GoString) (gz : Bool) (w : σ)
    (h : (ToHTTPRequest E s gz w).1.2 = none) :
    (ToHTTPRequest E s gz w).1.1.Method ∈ allowedHTTPMethods := by
  rcases colon_shape s with hs | ⟨m, p, rfl, hm, hp⟩ | ⟨m, p, b, rfl, hm, hp⟩
  · rw [ToHTTPRequest_zero_cuts E s gz w hs] at h
    exact Option.noConfusion h
  · by_cases hv : E.ToUpper m ∈ allowedHTTPMethods
    · rw [ToHTTPRequest_one_cut E m p gz w hm hp hv]
      exact hv
    · rw [ToHTTPRequest_unsupported E m p gz w hm hv] at h
      exact Option.noConfusion h
  · by_cases hv : E.ToUpper m ∈ allowedHTTPMethods
    · cases hres : (E.GetBodyFromFileOrInlined b (E.InterpolatePlaceholders p w).2).1 with
      | error c =>
        rw [ToHTTPRequest_two_cuts_error E m p b gz w c hm hp hv hres] at h
        exact Option.noConfusion h
      | ok t =>
        rw [ToHTTPRequest_two_cuts_ok E m p b gz w t hm hp hv hres]
        exact hv
    · rw [ToHTTPRequest_unsupported E m (p ++ ':' :: b) gz w hm hv] at h
      exact Option.noConfusion h

/-- The string `trace:/x:y` is accepted, and its method `TRACE` is allowed. -/
theorem C4_method_allowed_witness :
    (ToHTTPRequest plainEnv "trace:/x:y".toList true []).1.2 = none ∧
    (ToHTTPRequest plainEnv "trace:/x:y".toList true []).1.1.Method ∈ allowedHTTPMethods :=
  ⟨by decide, C4_method_allowed plainEnv "trace:/x:y".toList true [] (by decide)⟩

/-- C5: whenever `ToHTTPRequest` returns without error, the body of the
returned request is nil exactly when the request string has fewer than two
colons, and the body is nil with compression on exactly when it is nil with
compression off. -/
theorem C5_body_nil_iff {σ : Type} (E : Env σ) (s : GoString) (gz : Bool) (w : σ)
    (h : (ToHTTPRequest E s gz w).1.2 = none) :
    ((ToHTTPRequest E s gz w).1.1.Body = none ↔ s.count ':' < 2) ∧
      ((ToHTTPRequest E s true w).1.1.Body = none ↔
        (ToHTTPRequest E s false w).1.1.Body = none) := by
  rcases colon_shape s with hs | ⟨m, p, rfl, hm, hp⟩ | ⟨m, p, b, rfl, hm, hp⟩
  · rw [ToHTTPRequest_zero_cuts E s gz w hs] at h
    exact Option.noConfusion h
  · by_cases hv : E.ToUpper m ∈ allowedHTTPMethods
    · rw [ToHTTPRequest_one_cut E m p gz w hm hp hv, ToHTTPRequest_one_cut E m p true w hm hp hv,
        ToHTTPRequest_one_cut E m p false w hm hp hv, count_one_cut m p hm hp]
      simp
    · rw [ToHTTPRequest_unsupported E m p gz w hm hv] at h
      exact Option.noConfusion h
  · by_cases hv : E.ToUpper m ∈ allowedHTTPMethods
    · cases hres : (E.GetBodyFromFileOrInlined b (E.InterpolatePlaceholders p w).2).1 with
      | error c =>
        rw [ToHTTPRequest_two_cuts_error E m p b gz w c hm hp hv hres] at h
        exact Option.noConfusion h
      | ok t =>
        rw [ToHTTPRequest_two_cuts_ok E m p b gz w t hm hp hv hres,
          ToHTTPRequest_two_cuts_ok E m p b true w t hm hp hv hres,
          ToHTTPRequest_two_cuts_ok E m p b false w t hm hp hv hres]
        have hc := count_two_cuts m p b
        simp only [reduceCtorEq, false_iff, iff_self, and_true, not_lt]
        exact hc
    · rw [ToHTTPRequest_unsupported E m (p ++ ':' :: b) gz w hm hv] at h
      exact Option.noConfusion h

/-- The test string `get:ping` has one colon and a nil body, with compression
on as with compression off. -/
theorem C5_body_nil_iff_witness :
    (ToHTTPRequest plainEnv "get:ping".toList false []).1.2 = none ∧
    (ToHTTPRequest plainEnv "get:ping".toList false []).1.1.Body = none ∧
    (ToHTTPRequest plainEnv "get:ping".toList true []).1.1.Body = none :=
  ⟨by decide,
    (C5_body_nil_iff plainEnv "get:ping".toList false [] (by decide)).1.mpr (by decide),
    (C5_body_nil_iff plainEnv "get:ping".toList false [] (by decide)).2.mpr
      ((C5_body_nil_iff plainEnv "get:ping".toList false [] (by decide)).1.mpr (by decide))⟩

/-- C6: for every request string `m:p:b` whose first segment upper-cases to
an allowed method and whose second segment has no colon, if the body resolver
returns `t` for the whole of `b`, then `ToHTTPRequest` with compression off
returns no error, the upper-case method, the expanded `p` as path, and as body
a buffer that, read to its end, yields exactly the expanded `t`; when the
resolver returns `b` itself and the expander leaves it as it is, the body
yields exactly `b`. -/
theorem C6_three_parts_uncompressed {σ : Type} (E : Env σ) (m p b t : GoString) (w : σ)
    (hm : ':' ∉ m) (hp : ':' ∉ p) (hv : E.ToUpper m ∈ allowedHTTPMethods)
    (hres : (E.GetBodyFromFileOrInlined b (E.InterpolatePlaceholders p w).2).1 = Except.ok t) :
    (ToHTTPRequest E (m ++ ':' :: (p ++ ':' :: b)) false w).1 =
      ({ Method := E.ToUpper m, Path := (E.InterpolatePlaceholders p w).1,
         Body := some (Reader.buffer (E.InterpolatePlaceholders t
           (E.GetBodyFromFileOrInlined b (E.InterpolatePlaceholders p w).2).2).1) }, none) ∧
    (ToHTTPRequest E (m ++ ':' :: (p ++ ':' :: b)) false w).1.1.Body.bind Reader.ReadFrom =
      some (E.InterpolatePlaceholders t
        (E.GetBodyFromFileOrInlined b (E.InterpolatePlaceholders p w).2).2).1 ∧
    (t = b → (E.InterpolatePlaceholders b
        (E.GetBodyFromFileOrInlined b (E.InterpolatePlaceholders p w).2).2).1 = b →
      (ToHTTPRequest E (m ++ ':' :: (p ++ ':' :: b)) false w).1.1.Body.bind Reader.ReadFrom =
        some b) := by
  rw [ToHTTPRequest_two_cuts_ok E m p b false w t hm hp hv hres]
  refine ⟨by simp, by simp [Reader.ReadFrom], ?_⟩
  intro ht hb
  subst ht
  simp [Reader.ReadFrom, hb]

/-- The test string `post:/db:{"db": "true"}` gives method `POST`, path `/db`
and a body that yields `{"db": "true"}`. -/
theorem C6_three_parts_uncompressed_witness :
    plainEnv.ToUpper "post".toList ∈ allowedHTTPMethods ∧
    (ToHTTPRequest plainEnv "post:/db:\x7b\"db\": \"true\"\x7d".toList false []).1 =
      ({ Method := "POST".toList, Path := "/db".toList,
         Body := some (Reader.buffer "\x7b\"db\": \"true\"\x7d".toList) }, none) ∧
    (ToHTTPRequest plainEnv
      "post:/db:\x7b\"db\": \"true\"\x7d".toList false []).1.1.Body.bind Reader.ReadFrom =
      some "\x7b\"db\": \"true\"\x7d".toList :=
  ⟨by decide,
    (C6_three_parts_uncompressed plainEnv "post".toList "/db".toList
      "\x7b\"db\": \"true\"\x7d".toList "\x7b\"db\": \"true\"\x7d".toList []
      (by decide) (by decide) (by decide) rfl).1,
    (C6_three_parts_uncompressed plainEnv "post".toList "/db".toList
      "\x7b\"db\": \"true\"\x7d".toList "\x7b\"db\": \"true\"\x7d".toList []
      (by decide) (by decide) (by decide) rfl).2.2 rfl rfl⟩

/-- C7: for every request string `m:p` with exactly one colon whose first
segment upper-cases to an allowed method, `ToHTTPRequest` returns no error,
for either value of the compression flag, and exactly the request with the
upper-case method, the expanded `p` as path and a nil body; `p` may be
empty. -/
theorem C7_two_parts {σ : Type} (E : Env σ) (m p : GoString) (gz : Bool) (w : σ)
    (hm : ':' ∉ m) (hp : ':' ∉ p) (hv : E.ToUpper m ∈ allowedHTTPMethods) :
    (ToHTTPRequest E (m ++ ':' :: p) gz w).1 =
      ({ Method := E.ToUpper m, Path := (E.InterpolatePlaceholders p w).1, Body := none },
        none) := by
  rw [ToHTTPRequest_one_cut E m p gz w hm hp hv]

/-- The string `get:` is accepted with method `GET`, the path the expander
returns for the empty string and a nil body. -/
theorem C7_two_parts_witness :
    plainEnv.ToUpper "get".toList ∈ allowedHTTPMethods ∧
    (ToHTTPRequest plainEnv "get:".toList true []).1 =
      ({ Method := "GET".toList, Path := (plainEnv.InterpolatePlaceholders [] []).1,
         Body := none }, none) :=
  ⟨by decide, C7_two_parts plainEnv "get".toList [] true [] (by decide) (by decide) (by decide)⟩

/-- C8, as stated, fails: on `post:/db:file:/nope` the resolver fails with
the cause "open /nope: no such file or directory", and the error returned by
`ToHTTPRequest` names the segment `file:/nope` but wraps no error and does not
carry the text of the cause. -/
theorem C8_counterexample :
    (plainEnv.GetBodyFromFileOrInlined "file:/nope".toList []).1 =
      Except.error (GoError.errorString "open /nope: no such file or directory".toList) ∧
    (ToHTTPRequest plainEnv "post:/db:file:/nope".toList false []).1.2 =
      some (GoError.errorString "unable to parse body for request: file:/nope".toList) ∧
    ((ToHTTPRequest plainEnv "post:/db:file:/nope".toList false []).1.2.bind GoError.Unwrap) =
      none ∧
    ¬ ("open /nope: no such file or directory".toList <:+:
        "unable to parse body for request: file:/nope".toList) := by
  refine ⟨rfl, by decide, by decide, by decide⟩

/-- C8, amended: for every request string `m:p:b` with an allowed method on
whose body segment the body resolver fails, with whatever cause,
`ToHTTPRequest` returns the zero request and the error "unable to parse body
for request: <b>", which names the body segment and is the same for every
cause. -/
theorem C8_body_error {σ : Type} (E : Env σ) (m p b : GoString) (gz : Bool) (w : σ)
    (c : GoError) (hm : ':' ∉ m) (hp : ':' ∉ p) (hv : E.ToUpper m ∈ allowedHTTPMethods)
    (hres : (E.GetBodyFromFileOrInlined b (E.InterpolatePlaceholders p w).2).1 = Except.error c) :
    (ToHTTPRequest E (m ++ ':' :: (p ++ ':' :: b)) gz w).1 =
      (Request.zero, some (GoError.errorString
        ("unable to parse body for request: ".toList ++ b))) := by
  rw [ToHTTPRequest_two_cuts_error E m p b gz w c hm hp hv hres]

/-- The string `put:/db:file:/etc/shadow`, with no readable file of that
name, gives the error that names `file:/etc/shadow`. -/
theorem C8_body_error_witness :
    plainEnv.ToUpper "put".toList ∈ allowedHTTPMethods ∧
    (plainEnv.GetBodyFromFileOrInlined "file:/etc/shadow".toList
      (plainEnv.InterpolatePlaceholders "/db".toList []).2).1 =
      Except.error (GoError.errorString
        "open /etc/shadow: no such file or directory".toList) ∧
    (ToHTTPRequest plainEnv "put:/db:file:/etc/shadow".toList true []).1 =
      (Request.zero, some (GoError.errorString
        "unable to parse body for request: file:/etc/shadow".toList)) :=
  ⟨by decide, rfl,
    C8_body_error plainEnv "put".toList "/db".toList "file:/etc/shadow".toList true []
      (GoError.errorString "open /etc/shadow: no such file or directory".toList)
      (by decide) (by decide) (by decide) rfl⟩

/-- C10: for every request string `m:p:` that ends right after its second
colon, with an allowed method, if the resolver and the expander return the
empty string for the empty string, then `ToHTTPRequest` with compression off
returns no error and a body that is present and yields no bytes, whereas the
same string without the last colon gives a nil body. -/
theorem C10_empty_body_present {σ : Type} (E : Env σ) (m p : GoString) (w : σ)
    (hm : ':' ∉ m) (hp : ':' ∉ p) (hv : E.ToUpper m ∈ allowedHTTPMethods)
    (hres : (E.GetBodyFromFileOrInlined [] (E.InterpolatePlaceholders p w).2).1 = Except.ok [])
    (hexp : (E.InterpolatePlaceholders []
      (E.GetBodyFromFileOrInlined [] (E.InterpolatePlaceholders p w).2).2).1 = []) :
    (ToHTTPRequest E (m ++ ':' :: (p ++ [':'])) false w).1.2 = none ∧
    (ToHTTPRequest E (m ++ ':' :: (p ++ [':'])) false w).1.1.Body = some (Reader.buffer []) ∧
    (ToHTTPRequest E (m ++ ':' :: (p ++ [':'])) false w).1.1.Body.bind Reader.ReadFrom =
      some [] ∧
    (ToHTTPRequest E (m ++ ':' :: p) false w).1.1.Body = none ∧
    (ToHTTPRequest E (m ++ ':' :: (p ++ [':'])) false w).1.1.Body ≠
      (ToHTTPRequest E (m ++ ':' :: p) false w).1.1.Body := by
  rw [ToHTTPRequest_two_cuts_ok E m p [] false w [] hm hp hv hres,
    ToHTTPRequest_one_cut E m p false w hm hp hv]
  simp [hexp, Reader.ReadFrom]

/-- The string `get:/ping:` has a present, empty body and `get:/ping` a nil
one. -/
theorem C10_empty_body_present_witness :
    plainEnv.ToUpper "get".toList ∈ allowedHTTPMethods ∧
    (ToHTTPRequest plainEnv "get:/ping:".toList false []).1 =
      ({ Method := "GET".toList, Path := "/ping".toList, Body := some (Reader.buffer []) },
        none) ∧
    (ToHTTPRequest plainEnv "get:/ping".toList false []).1.1.Body = none ∧
    (ToHTTPRequest plainEnv "get:/ping:".toList false []).1.1.Body.bind Reader.ReadFrom =
      some [] :=
  ⟨by decide, by decide,
    (C10_empty_body_present plainEnv "get".toList "/ping".toList []
      (by decide) (by decide) (by decide) rfl rfl).2.2.2.1,
    (C10_empty_body_present plainEnv "get".toList "/ping".toList []
      (by decide) (by decide) (by decide) rfl rfl).2.2.1⟩

/-- C11, as stated, fails: the file `/tmp/body` holds the text
`{"ts": {$currentTimestamp}}`, the resolver returns that text for the
segment `file:/tmp/body`, and the body of `post:/db:file:/tmp/body` yields
`{"ts": 1700000000000}`, the expansion of the text, not the text. -/
theorem C11_counterexample :
    (clockEnv.GetBodyFromFileOrInlined "file:/tmp/body".toList
      ⟨"1700000000000".toList,
        [("/tmp/body".toList, "\x7b\"ts\": \x7b$currentTimestamp\x7d\x7d".toList)]⟩).1 =
      Except.ok "\x7b\"ts\": \x7b$currentTimestamp\x7d\x7d".toList ∧
    (ToHTTPRequest clockEnv "post:/db:file:/tmp/body".toList false
      ⟨"1700000000000".toList,
        [("/tmp/body".toList, "\x7b\"ts\": \x7b$currentTimestamp\x7d\x7d".toList)]⟩).1.1.Body.bind
        Reader.ReadFrom = some "\x7b\"ts\": 1700000000000\x7d".toList ∧
    "\x7b\"ts\": 1700000000000\x7d".toList ≠ "\x7b\"ts\": \x7b$currentTimestamp\x7d\x7d".toList := by
  refine ⟨rfl, by decide, by decide⟩

/-- C11, amended: for every request string `m:p:file:<path>` with an allowed
method, the body resolver is given the whole text after the second colon as
it was typed, `file:<path>`, and when it returns the contents of the file the
body with compression off yields exactly the expansion of those contents,
which is the contents themselves when the expander leaves them as they
are. -/
theorem C11_body_from_file {σ : Type} (E : Env σ) (m p path contents : GoString) (w : σ)
    (hm : ':' ∉ m) (hp : ':' ∉ p) (hv : E.ToUpper m ∈ allowedHTTPMethods)
    (hres : (E.GetBodyFromFileOrInlined ("file:".toList ++ path)
      (E.InterpolatePlaceholders p w).2).1 = Except.ok contents) :
    (ToHTTPRequest E (m ++ ':' :: (p ++ ':' :: ("file:".toList ++ path))) false w).1.2 = none ∧
    (ToHTTPRequest E (m ++ ':' :: (p ++ ':' :: ("file:".toList ++ path))) false w).1.1.Body.bind
        Reader.ReadFrom =
      some (E.InterpolatePlaceholders contents
        (E.GetBodyFromFileOrInlined ("file:".toList ++ path)
          (E.InterpolatePlaceholders p w).2).2).1 ∧
    ((E.InterpolatePlaceholders contents
        (E.GetBodyFromFileOrInlined ("file:".toList ++ path)
          (E.InterpolatePlaceholders p w).2).2).1 = contents →
      (ToHTTPRequest E (m ++ ':' :: (p ++ ':' :: ("file:".toList ++ path))) false
        w).1.1.Body.bind Reader.ReadFrom = some contents) := by
  rw [ToHTTPRequest_two_cuts_ok E m p ("file:".toList ++ path) false w contents hm hp hv hres]
  refine ⟨rfl, by simp [Reader.ReadFrom], ?_⟩
  intro hc
  simpa [Reader.ReadFrom] using hc

/-- The file named `/tmp/{$currentTimestamp}`, token and all, holds
`{"foo": "bar"}`: the body of `post:/db:file:/tmp/{$currentTimestamp}` yields
exactly that text, so the segment reached the resolver as it was typed. -/
theorem C11_body_from_file_witness :
    clockEnv.ToUpper "post".toList ∈ allowedHTTPMethods ∧
    (clockEnv.GetBodyFromFileOrInlined "file:/tmp/\x7b$currentTimestamp\x7d".toList
      ⟨"1700000000000".toList,
        [("/tmp/\x7b$currentTimestamp\x7d".toList, "\x7b\"foo\": \"bar\"\x7d".toList)]⟩).1 =
      Except.ok "\x7b\"foo\": \"bar\"\x7d".toList ∧
    (ToHTTPRequest clockEnv "post:/db:file:/tmp/\x7b$currentTimestamp\x7d".toList false
      ⟨"1700000000000".toList,
        [("/tmp/\x7b$currentTimestamp\x7d".toList,
          "\x7b\"foo\": \"bar\"\x7d".toList)]⟩).1.1.Body.bind Reader.ReadFrom =
      some "\x7b\"foo\": \"bar\"\x7d".toList :=
  ⟨by decide, rfl,
    (C11_body_from_file clockEnv "post".toList "/db".toList "/tmp/\x7b$currentTimestamp\x7d".toList
      "\x7b\"foo\": \"bar\"\x7d".toList
      ⟨"1700000000000".toList,
        [("/tmp/\x7b$currentTimestamp\x7d".toList, "\x7b\"foo\": \"bar\"\x7d".toList)]⟩
      (by decide) (by decide) (by decide) rfl).2.2 (by decide)⟩

/-- C13: from the same world, `ToHTTPRequest` with compression on and with
compression off return the same error, the same method, the same path, a nil
body in the same cases and the same final world; when the body with
compression off is the buffer of a text, the body with compression on is the
compressed stream of that same text. -/
theorem C13_flag_changes_only_body_bytes {σ : Type} (E : Env σ) (s : GoString) (w : σ) :
    (ToHTTPRequest E s true w).1.2 = (ToHTTPRequest E s false w).1.2 ∧
    (ToHTTPRequest E s true w).1.1.Method = (ToHTTPRequest E s false w).1.1.Method ∧
    (ToHTTPRequest E s true w).1.1.Path = (ToHTTPRequest E s false w).1.1.Path ∧
    ((ToHTTPRequest E s true w).1.1.Body = none ↔ (ToHTTPRequest E s false w).1.1.Body = none) ∧
    (ToHTTPRequest E s true w).2 = (ToHTTPRequest E s false w).2 ∧
    (∀ t, (ToHTTPRequest E s false w).1.1.Body = some (Reader.buffer t) →
      (ToHTTPRequest E s true w).1.1.Body = some (GZipCompressBody t)) := by
  rcases colon_shape s with hs | ⟨m, p, rfl, hm, hp⟩ | ⟨m, p, b, rfl, hm, hp⟩
  · rw [ToHTTPRequest_zero_cuts E s true w hs, ToHTTPRequest_zero_cuts E s false w hs]
    simp [Request.zero]
  · by_cases hv : E.ToUpper m ∈ allowedHTTPMethods
    · rw [ToHTTPRequest_one_cut E m p true w hm hp hv, ToHTTPRequest_one_cut E m p false w hm hp hv]
      simp
    · rw [ToHTTPRequest_unsupported E m p true w hm hv,
        ToHTTPRequest_unsupported E m p false w hm hv]
      simp [Request.zero]
  · by_cases hv : E.ToUpper m ∈ allowedHTTPMethods
    · cases hres : (E.GetBodyFromFileOrInlined b (E.InterpolatePlaceholders p w).2).1 with
      | error c =>
        rw [ToHTTPRequest_two_cuts_error E m p b true w c hm hp hv hres,
          ToHTTPRequest_two_cuts_error E m p b false w c hm hp hv hres]
        simp [Request.zero]
      | ok t =>
        rw [ToHTTPRequest_two_cuts_ok E m p b true w t hm hp hv hres,
          ToHTTPRequest_two_cuts_ok E m p b false w t hm hp hv hres]
        simp
    · rw [ToHTTPRequest_unsupported E m (p ++ ':' :: b) true w hm hv,
        ToHTTPRequest_unsupported E m (p ++ ':' :: b) false w hm hv]
      simp [Request.zero]

/-- C14: whenever `ToHTTPRequest` returns an error, the request returned with
it is the zero value: empty method, empty path, nil body. -/
theorem C14_error_zero_request {σ : Type} (E : Env σ) (s : GoString) (gz : Bool) (w : σ)
    (h : (ToHTTPRequest E s gz w).1.2 ≠ none) :
    (ToHTTPRequest E s gz w).1.1 = { Method := [], Path := [], Body := none } := by
  rcases colon_shape s with hs | ⟨m, p, rfl, hm, hp⟩ | ⟨m, p, b, rfl, hm, hp⟩
  · rw [ToHTTPRequest_zero_cuts E s gz w hs]
    rfl
  · by_cases hv : E.ToUpper m ∈ allowedHTTPMethods
    · rw [ToHTTPRequest_one_cut E m p gz w hm hp hv] at h
      exact absurd rfl h
    · rw [ToHTTPRequest_unsupported E m p gz w hm hv]
      rfl
  · by_cases hv : E.ToUpper m ∈ allowedHTTPMethods
    · cases hres : (E.GetBodyFromFileOrInlined b (E.InterpolatePlaceholders p w).2).1 with
      | error c =>
        rw [ToHTTPRequest_two_cuts_error E m p b gz w c hm hp hv hres]
        rfl
      | ok t =>
        rw [ToHTTPRequest_two_cuts_ok E m p b gz w t hm hp hv hres] at h
        exact absurd rfl h
    · rw [ToHTTPRequest_unsupported E m (p ++ ':' :: b) gz w hm hv]
      rfl

/-- The strings `ping`, `hmm:/ping:all=true` and `post:/db:file:/nope` fail,
one for each kind of error, and each comes with the zero request. -/
theorem C14_error_zero_request_witness :
    (ToHTTPRequest plainEnv "ping".toList false []).1.2 ≠ none ∧
    (ToHTTPRequest plainEnv "hmm:/ping:all=true".toList false []).1.2 ≠ none ∧
    (ToHTTPRequest plainEnv "post:/db:file:/nope".toList true []).1.2 ≠ none ∧
    (ToHTTPRequest plainEnv "ping".toList false []).1.1 =
      { Method := [], Path := [], Body := none } ∧
    (ToHTTPRequest plainEnv "hmm:/ping:all=true".toList false []).1.1 =
      { Method := [], Path := [], Body := none } ∧
    (ToHTTPRequest plainEnv "post:/db:file:/nope".toList true []).1.1 =
      { Method := [], Path := [], Body := none } :=
  ⟨by decide, by decide, by decide,
    C14_error_zero_request plainEnv "ping".toList false [] (by decide),
    C14_error_zero_request plainEnv "hmm:/ping:all=true".toList false [] (by decide),
    C14_error_zero_request plainEnv "post:/db:file:/nope".toList true [] (by decide)⟩

end Mittens
